import Mathlib

/-!
Verification of the pkgbuilder package-building orchestrator.

The definitions below are a shallow embedding of the Python sources:
pkgbuild.py (restriction parsing, provider index, local directory scan)
and builder.py (manifest persistence and the recursive build procedure).
Strings stand for package names, version strings and artifact paths;
Python sets become finite sets of strings; the filesystem and the
external build tool are explicit parameters.
-/

namespace PkgBuilder

/-- Version restriction, a named pair of comparison operator and version
string, as in pkgbuild.py line 26. -/
structure Restriction where
  compare : String
  version : String
deriving DecidableEq, Repr

/-- Lazy pattern split used by the parse library for a pattern of the form
name-op-version: the name takes the shortest nonempty prefix such that the
operator follows it and a nonempty version remains. -/
def lazySplit (op : List Char) : List Char → Option (List Char × List Char)
  | [] => none
  | x :: rest =>
    if op.isPrefixOf rest ∧ rest.drop op.length ≠ [] then
      some ([x], rest.drop op.length)
    else
      match lazySplit op rest with
      | some (n, v) => some (x :: n, v)
      | none => none

/-- Try each comparator in order, returning the first successful split,
as in the loop of parse_restriction (pkgbuild.py lines 35-38). -/
def tryOps : List String → String → Option (String × Restriction)
  | [], _ => none
  | c :: cs, pkg =>
    match lazySplit c.data pkg.data with
    | some (n, v) => some (String.mk n, ⟨c, String.mk v⟩)
    | none => tryOps cs pkg

/-- Embedding of parse_restriction (pkgbuild.py lines 29-40): scan for the
comparators in priority order and split the token; return the token
unchanged with no restriction when none matches. -/
def parse_restriction (pkg : String) : String × Option Restriction :=
  match tryOps [">=", "<=", ">", "<", "="] pkg with
  | some (n, r) => (n, some r)
  | none => (pkg, none)

/-- Lexicographic comparison of character lists by code point, the ordering
Python uses to compare version strings directly. -/
def strLt : List Char → List Char → Bool
  | [], [] => false
  | [], _ :: _ => true
  | _ :: _, [] => false
  | a :: as, b :: bs => if a < b then true else if b < a then false else strLt as bs

/-- Test whether one restriction rules out candidate version v, mirroring
the disjunction in restrict_version (pkgbuild.py lines 122-127). -/
def restrictionFails (v : String) (r : Restriction) : Bool :=
  (r.compare == ">" && !strLt r.version.data v.data) ||
  (r.compare == "<" && !strLt v.data r.version.data) ||
  (r.compare == "=" && !(v == r.version)) ||
  (r.compare == ">=" && strLt v.data r.version.data) ||
  (r.compare == "<=" && strLt r.version.data v.data)

/-- Embedding of restrict_version (pkgbuild.py lines 120-129): all
restrictions must hold, any failing one returns False. -/
def restrict_version (v : String) (rs : List Restriction) : Bool :=
  rs.all fun r => !restrictionFails v r

/-- Index key, the Package named tuple of pkgbuild.py line 57. -/
structure Package where
  name : String
  version : String
deriving DecidableEq, Repr

/-- Payload of ProviderNotFoundError: the requested name and the attempted
version restrictions (pkgbuild.py lines 131-133). -/
structure ProviderErr where
  name : String
  version_restrictions : List Restriction
deriving DecidableEq, Repr

/-- The LocalDir state: its directory path (none models a falsy path), the
check_update flag and the insertion-ordered packages dictionary mapping a
Package key to the list of providing PKGBUILD directory names. -/
structure LocalDir where
  path : Option String
  check_update : Bool
  packages : List (Package × List String)
deriving DecidableEq

/-- Predicate selecting an index entry for providers: name equality and
version satisfaction of all restrictions (pkgbuild.py lines 138-139). -/
def providerMatch (name : String) (rs : List Restriction) (e : Package × List String) : Bool :=
  e.1.name == name && restrict_version e.1.version rs

/-- Embedding of LocalDir.providers (pkgbuild.py lines 110-141): raise when
the index is empty or the path falsy, otherwise return the providers of the
first matching entry in scan order, or raise carrying the restrictions. -/
def LocalDir.providers (ld : LocalDir) (name : String) (rs : List Restriction) :
    Except ProviderErr (List String) :=
  if ld.packages = [] ∨ ld.path = none then .error ⟨name, rs⟩
  else
    match ld.packages.find? (providerMatch name rs) with
    | some e => .ok e.2
    | none => .error ⟨name, rs⟩

/-- Parsed srcinfo of one PKGBUILD directory: base name, version and the
optional provides list (absent when the srcinfo has no provides key). -/
structure SrcinfoData where
  pkgbase : String
  pkgver : String
  provides : Option (List String)
deriving DecidableEq

/-- One subdirectory seen by the scan of LocalDir.update: its name, whether
it is a directory, and its srcinfo, none when Pkgbuild.new raises
NoPkgbuildError because no PKGBUILD file exists. -/
structure ScanEntry where
  name : String
  isDir : Bool
  srcinfo : Option SrcinfoData
deriving DecidableEq

/-- Embedding of add_package (pkgbuild.py lines 79-83): append the pkgbuild
to an existing key's list, or append a new key at the end of the
insertion-ordered dictionary. -/
def add_package (ps : List (Package × List String)) (pkg : Package) (pb : String) :
    List (Package × List String) :=
  if ps.any (fun e => e.1 == pkg) then
    ps.map fun e => if e.1 == pkg then (e.1, e.2 ++ [pb]) else e
  else ps ++ [(pkg, [pb])]

/-- Split a character list on every equals sign, as the provides parsing
does with split (pkgbuild.py line 98). -/
def splitEqAux : List Char → List Char → List (List Char)
  | [], acc => [acc.reverse]
  | '=' :: rest, acc => acc.reverse :: splitEqAux rest []
  | x :: rest, acc => splitEqAux rest (x :: acc)

/-- Parse one provides entry into a Package key: split on the equals sign
and default the version to pkgver when the split yields a single field
(pkgbuild.py lines 98-101). With three or more fields the Package
constructor call receives too many arguments and raises an uncaught
TypeError, modeled as none. -/
def parseProvide (pkgver p : String) : Option Package :=
  match splitEqAux p.data [] with
  | [n] => some ⟨String.mk n, pkgver⟩
  | [n, v] => some ⟨String.mk n, String.mk v⟩
  | _ => none

/-- The provides loop of LocalDir.update (pkgbuild.py lines 97-101):
register each provided name in turn; an entry whose split has three or
more fields raises, aborting the loop with the dictionary as mutated so
far (earlier entries stay registered) carried in the error. -/
def registerProvides (pkgver nm : String) :
    List String → List (Package × List String) →
    Except (List (Package × List String)) (List (Package × List String))
  | [], acc => .ok acc
  | p :: rest, acc =>
    match parseProvide pkgver p with
    | some k => registerProvides pkgver nm rest (add_package acc k nm)
    | none => .error acc

/-- Process one scan entry as the loop body of LocalDir.update
(pkgbuild.py lines 86-105): skip non-directories and entries without a
PKGBUILD; register under every provided name when a provides list is
declared, under the base identity otherwise. A provides entry with three
or more equals-separated fields raises out of the loop. -/
def registerEntry (ps : List (Package × List String)) (e : ScanEntry) :
    Except (List (Package × List String)) (List (Package × List String)) :=
  match e.isDir, e.srcinfo with
  | false, _ => .ok ps
  | true, none => .ok ps
  | true, some si =>
    match si.provides with
    | some provs => registerProvides si.pkgver e.name provs ps
    | none => .ok (add_package ps ⟨si.pkgbase, si.pkgver⟩ e.name)

/-- The scan loop of LocalDir.update over all directory entries; an
uncaught TypeError from a provides entry aborts the whole scan, leaving
the partially updated dictionary in the error. -/
def updateScan : List ScanEntry → List (Package × List String) →
    Except (List (Package × List String)) (List (Package × List String))
  | [], ps => .ok ps
  | e :: rest, ps =>
    match registerEntry ps e with
    | .ok ps1 => updateScan rest ps1
    | .error ps1 => .error ps1

/-- The packages dictionary after a scan, also on the error path: the
Python dictionary is mutated in place, so the registrations made before
an abort persist on the object even though update raises. -/
def scanPackages :
    Except (List (Package × List String)) (List (Package × List String)) →
    List (Package × List String)
  | .ok ps => ps
  | .error ps => ps

/-- Embedding of LocalDir.update (pkgbuild.py lines 66-108): return the
empty index when the path is falsy, reuse the cached index unless
check_update or force, otherwise scan and clear check_update; a raising
scan propagates with check_update still set and the partial dictionary
on the object. -/
def LocalDir.update (ld : LocalDir) (entries : List ScanEntry) (force : Bool) :
    Except (LocalDir) (LocalDir × List (Package × List String)) :=
  if ld.path = none then .ok (ld, [])
  else if !(ld.check_update || force) then .ok (ld, ld.packages)
  else
    match updateScan entries ld.packages with
    | .ok ps => .ok ({ ld with packages := ps, check_update := false }, ps)
    | .error ps => .error { ld with packages := ps }

/-- Whether the index lists pb among the providers registered under key k. -/
def registered (k : Package) (pb : String) (ps : List (Package × List String)) : Bool :=
  ps.any fun e => e.1 == k && decide (pb ∈ e.2)

/-- In-memory manifest state: pkgname and the three artifact path sets
(builder.py lines 41-45 and 132-138). -/
structure MState where
  pkgname : String
  packages : Finset String
  depends : Finset String
  makedepends : Finset String
deriving DecidableEq

/-- Contents of a parsed manifest JSON object; each field is none when the
corresponding key is missing from the file. -/
structure JManifest where
  name : Option String
  packages : Option (Finset String)
  depends : Option (Finset String)
  makedepends : Option (Finset String)
deriving DecidableEq

/-- State of the manifest file on disk: missing, present with contents that
are not valid JSON, or a valid JSON object. -/
inductive ManifestFile where
  | absent
  | invalid
  | valid (j : JManifest)
deriving DecidableEq

/-- Embedding of Manifest.load (builder.py lines 109-130). A missing file
returns the empty dictionary; invalid JSON raises out of json.load, which
is outside the try block; a valid object is read key by key in source
order with only KeyError caught, so fields assigned before a missing key
keep the file's values. The boolean is the truthiness of the returned
dictionary. -/
def Manifest.load (st : MState) (file : ManifestFile) : Except Unit (MState × Bool) :=
  match file with
  | .absent => .ok (st, false)
  | .invalid => .error ()
  | .valid j =>
    match j.name with
    | none => .ok (st, false)
    | some nm =>
      let st := { st with pkgname := nm }
      match j.packages with
      | none => .ok (st, false)
      | some ps =>
        let st := { st with packages := ps }
        match j.depends with
        | none => .ok (st, false)
        | some ds =>
          let st := { st with depends := ds }
          match j.makedepends with
          | none => .ok (st, false)
          | some ms => .ok ({ st with makedepends := ms }, true)

/-- Embedding of Manifest.reset (builder.py lines 132-138): clear the three
sets, leaving pkgname as it is. -/
def resetState (st : MState) : MState :=
  { st with packages := ∅, depends := ∅, makedepends := ∅ }

/-- Fresh manifest state as built by the Manifest constructor. -/
def emptyMState (name : String) : MState := ⟨name, ∅, ∅, ∅⟩

/-- The runtime_packages property (builder.py line 93). -/
def runtime_packages (st : MState) : Finset String := st.packages ∪ st.depends

/-- The build_depends property (builder.py line 84). -/
def build_depends (st : MState) : Finset String := st.depends ∪ st.makedepends

/-- The all_packages property (builder.py line 62). -/
def all_packages (st : MState) : Finset String := st.packages ∪ st.depends ∪ st.makedepends

/-- The JSON object written by Manifest.save (builder.py lines 99-107). -/
def saveJ (st : MState) : JManifest :=
  ⟨some st.pkgname, some st.packages, some st.depends, some st.makedepends⟩

/-- The filesystem as the builder observes it: the manifest file of each
package build directory, keyed by package name, and existence of artifact
paths. -/
structure World where
  manifests : String → ManifestFile
  pathExists : String → Bool

/-- Result of one invocation of chroot.makepkg (chroot.py lines 174-190):
the makechrootpkg exit code, its standard output split into lines, and the
artifact paths the invocation brought into existence. -/
structure MakepkgResult where
  exit : Int
  stdout : List String
  created : List String

/-- The external collaborators of one run, resolved per package name: the
build tool behavior, the packagelist of each PKGBUILD, the name sets of its
declared depends and makedepends maps, and whether constructing a Builder
for a discovered dependency succeeds (provider resolution). -/
structure Env where
  makepkg : String → Finset String → World → MakepkgResult
  packagelist : String → Finset String
  depMap : String → List String
  makedepMap : String → List String
  resolvable : String → Bool

/-- Embedding of Pkgbuild.dependency_type (pkgbuild.py lines 379-389):
the string depends when the name is a declared runtime dependency, else
makedepends when declared there, else none (the method falls off the end
and returns None). -/
def dependency_type (env : Env) (pname dep : String) : Option String :=
  if dep ∈ env.depMap pname then some "depends"
  else if dep ∈ env.makedepMap pname then some "makedepends"
  else none

/-- Record created paths in the filesystem. -/
def addPaths (w : World) (created : List String) : World :=
  { w with pathExists := fun p => w.pathExists p || created.contains p }

/-- Manifest.save as a world update: write the serialized state into the
package's manifest file (builder.py lines 95-107). -/
def saveW (w : World) (name : String) (st : MState) : World :=
  { w with manifests := fun n => if n = name then .valid (saveJ st) else w.manifests n }

/-- Embedding of Manifest.verify (builder.py lines 64-75) applied to a
given path set: every path must exist. -/
def verifyB (w : World) (ps : Finset String) : Bool :=
  decide (∀ p ∈ ps, w.pathExists p = true)

/-- Split a character list on every colon-space separator, the f variable
of builder.py line 256. -/
def splitErrAux : List Char → List Char → List (List Char)
  | [], acc => [acc.reverse]
  | ':' :: ' ' :: rest, acc => acc.reverse :: splitErrAux rest []
  | x :: rest, acc => splitErrAux rest (x :: acc)

/-- Recognize one missing-target line of makepkg output (builder.py lines
255-258): split on colon-space, require the first two fields to be error
and target not found, and return the bare dependency name from
parse_restriction of the third field. -/
def parseErrLine (line : String) : Option String :=
  match splitErrAux line.data [] with
  | f0 :: f1 :: f2 :: _ =>
    if f0 = "error".data ∧ f1 = "target not found".data then
      some (parse_restriction (String.mk f2)).1
    else none
  | _ => none

/-- Merge a recursively built dependency's produced packages into the
parent manifest set selected by dependency_type (builder.py lines
259-269); a name classified as neither leaves the state unchanged. -/
def mergeDep (env : Env) (pname dep : String) (childPackages : Finset String)
    (st : MState) : MState :=
  let t := dependency_type env pname dep
  let st1 := if t = some "depends" then { st with depends := st.depends ∪ childPackages } else st
  if t = some "makedepends" then
    { st1 with makedepends := st1.makedepends ∪ childPackages }
  else st1

/-- Call tree of one build: per recursion level the package name, the
number of makepkg invocations issued at that level, the package set the
level produced, and the child levels spawned by dependency discovery. -/
inductive BTrace where
  | node (name : String) (passes : Nat) (built : Finset String) (kids : List BTrace)

/-- Result of one _build call: the returned path set, the builder's
manifest state afterwards, the filesystem afterwards, the number of
makepkg invocations at this level, and the traces of child builds. -/
structure BOut where
  ret : Finset String
  st : MState
  w : World
  passes : Nat
  kids : List BTrace

/-- A _build call either raises an uncaught exception or returns. -/
inductive BRes where
  | exn
  | ok (o : BOut)

/-- Arguments of one _build call: package name, the rebuild flag, the
iteration number, the builder's manifest state and the filesystem. -/
structure BIn where
  name : String
  rebuild : Bool
  iter : Nat
  st : MState
  w : World

/-- The dependency discovery loop of _build (builder.py lines 255-269),
parameterized by the recursive call used for child builds. Lines that do
not match the missing-target pattern are skipped; for each discovered
dependency a fresh child Builder is constructed (an unresolvable name
raises) and built, and its produced packages are merged by mergeDep.
A none result means the child build ran out of fuel. -/
def procLines (env : Env) (child : BIn → Option BRes) (pname : String) (rebuild : Bool) :
    List String → MState → World → List BTrace →
    Option (Except Unit (MState × World × List BTrace))
  | [], st, w, ks => some (.ok (st, w, ks))
  | line :: rest, st, w, ks =>
    match parseErrLine line with
    | none => procLines env child pname rebuild rest st w ks
    | some dep =>
      if env.resolvable dep then
        match child ⟨dep, rebuild, 1, emptyMState dep, w⟩ with
        | none => none
        | some .exn => some (.error ())
        | some (.ok o) =>
          procLines env child pname rebuild rest (mergeDep env pname dep o.st.packages st) o.w
            (ks ++ [.node dep o.passes o.st.packages o.kids])
      else some (.error ())

/-- The build-attempt phase of _build (builder.py lines 245-273): invoke
makepkg with the current build dependencies; on exit code zero add the
packagelist, and when verify passes save the manifest and return the
runtime packages; on a failing first attempt run dependency discovery and,
when any build dependency was collected, retry once at the next iteration;
in every other case return the empty set. -/
def buildStep2 (env : Env) (child : BIn → Option BRes) (name : String) (rebuild : Bool)
    (iter : Nat) (st : MState) (w : World) : Option BRes :=
  let m := env.makepkg name (build_depends st) w
  let w1 := addPaths w m.created
  if m.exit = 0 then
    let st1 := { st with packages := st.packages ∪ env.packagelist name }
    if verifyB w1 (runtime_packages st1) then
      some (.ok ⟨runtime_packages st1, st1, saveW w1 name st1, 1, []⟩)
    else some (.ok ⟨∅, st1, w1, 1, []⟩)
  else if iter = 1 then
    match procLines env child name rebuild m.stdout st w1 [] with
    | none => none
    | some (.error _) => some .exn
    | some (.ok (st2, w2, ks)) =>
      if build_depends st2 ≠ ∅ then
        match child ⟨name, rebuild, iter + 1, st2, w2⟩ with
        | none => none
        | some .exn => some .exn
        | some (.ok o) => some (.ok ⟨o.ret, o.st, o.w, 1 + o.passes, ks ++ o.kids⟩)
      else some (.ok ⟨∅, st2, w2, 1, ks⟩)
  else some (.ok ⟨∅, st, w1, 1, []⟩)

/-- One unfolding of _build (builder.py lines 226-273): on the first
iteration without rebuild, a manifest that loads truthy and verifies is a
cache hit returning the runtime packages with no makepkg invocation, and
otherwise the state is reset before the build attempt; with rebuild, or on
later iterations, the state goes to the build attempt unchanged. -/
def buildBody (env : Env) (child : BIn → Option BRes) : BIn → Option BRes :=
  fun args =>
    if args.iter = 1 then
      if args.rebuild then
        buildStep2 env child args.name args.rebuild args.iter args.st args.w
      else
        match Manifest.load args.st (args.w.manifests args.name) with
        | .error _ => some .exn
        | .ok (st1, loaded) =>
          if loaded && verifyB args.w (runtime_packages st1) then
            some (.ok ⟨runtime_packages st1, st1, args.w, 0, []⟩)
          else
            buildStep2 env child args.name args.rebuild args.iter (resetState st1) args.w
    else
      buildStep2 env child args.name args.rebuild args.iter args.st args.w

/-- Fuel semantics of the recursive _build: fuel bounds the recursion
depth, none means the bound was hit. A call of Builder.build corresponds
to buildFuel at iteration 1 with some sufficient fuel. -/
def buildFuel (env : Env) : Nat → BIn → Option BRes
  | 0 => fun _ => none
  | fuel + 1 => buildBody env (buildFuel env fuel)

/-- Builder.build (builder.py lines 275-282): run _build at iteration 1
(the list conversion of the returned set is dropped). -/
def buildTop (env : Env) (fuel : Nat) (name : String) (rebuild : Bool)
    (st : MState) (w : World) : Option BRes :=
  buildFuel env fuel ⟨name, rebuild, 1, st, w⟩

/-- Returned artifact set of a build result. -/
def retOf : Option BRes → Option (Finset String)
  | some (.ok o) => some o.ret
  | _ => none

/-- Number of makepkg invocations at the top level of a build result. -/
def passesOf : Option BRes → Option Nat
  | some (.ok o) => some o.passes
  | _ => none

/-- Manifest state of the builder after a build result. -/
def stOf : Option BRes → Option MState
  | some (.ok o) => some o.st
  | _ => none

/-- Name, invocation count and produced set of each child level of a build
result. -/
def kidsOf : Option BRes → Option (List (String × Nat × Finset String))
  | some (.ok o) => some (o.kids.map fun t => match t with | .node n p b _ => (n, p, b))
  | _ => none

/-- Every level of a call tree issued at most two makepkg invocations. -/
inductive TraceOK : BTrace → Prop
  | node {nm : String} {p : Nat} {b : Finset String} {ks : List BTrace} :
      p ≤ 2 → (∀ t ∈ ks, TraceOK t) → TraceOK (.node nm p b ks)

/-- A dependency name the build tool can report missing for a package, in
some filesystem state and with some installed build dependencies. -/
def possibleDeps (env : Env) (name dep : String) : Prop :=
  ∃ bd w, dep ∈ (env.makepkg name bd w).stdout.filterMap parseErrLine

/-- Every chain of discoverable missing dependencies starting from the
given name has length strictly below the bound. -/
def discoveryBounded (env : Env) : Nat → String → Prop
  | 0, _ => False
  | n + 1, name => ∀ dep, possibleDeps env name dep → discoveryBounded env n dep

/-- Whether a build result is fuel exhaustion, the marker of a run that
exceeded every finite recursion-depth bound. -/
def isFuelOut : Option BRes → Bool
  | none => true
  | _ => false

/-- A filesystem with no manifest files and no artifact paths. -/
def wAbsent : World where
  manifests := fun _ => .absent
  pathExists := fun _ => false

/-- Build tool with a two-cycle of discovery: building A always fails
reporting B missing, building B always fails reporting A missing, and each
name declares the other as a runtime dependency. -/
def envCycle : Env where
  makepkg := fun name _ _ =>
    match name with
    | "A" => ⟨1, ["error: target not found: B"], []⟩
    | "B" => ⟨1, ["error: target not found: A"], []⟩
    | _ => ⟨1, [], []⟩
  packagelist := fun _ => ∅
  depMap := fun name => match name with | "A" => ["B"] | "B" => ["A"] | _ => []
  makedepMap := fun _ => []
  resolvable := fun _ => true

/-- Build tool under which A first fails reporting the build-only
dependency b missing, succeeds once b's artifact is installed, and
building b succeeds immediately. -/
def envMakedep : Env where
  makepkg := fun name bd _ =>
    match name with
    | "A" =>
      if "b.pkg" ∈ bd then ⟨0, [], ["A.pkg"]⟩
      else ⟨1, ["error: target not found: b"], []⟩
    | _ => ⟨0, [], ["b.pkg"]⟩
  packagelist := fun name => match name with | "A" => {"A.pkg"} | "b" => {"b.pkg"} | _ => ∅
  depMap := fun _ => []
  makedepMap := fun name => match name with | "A" => ["b"] | _ => []
  resolvable := fun _ => true

/-- Build tool under which every build of R succeeds producing R.pkg. -/
def envRebuild : Env where
  makepkg := fun _ _ _ => ⟨0, [], ["R.pkg"]⟩
  packagelist := fun name => match name with | "R" => {"R.pkg"} | _ => ∅
  depMap := fun _ => []
  makedepMap := fun _ => []
  resolvable := fun _ => true

/-- A filesystem containing only the stale artifact path old. -/
def wOld : World where
  manifests := fun _ => .absent
  pathExists := fun p => p == "old"

/-- A builder state already tracking the artifact old in its packages set
before build is called again. -/
def stOldR : MState := ⟨"R", {"old"}, ∅, ∅⟩

/-- Build tool under which P fails reporting q missing, while q is declared
in neither the depends nor the makedepends map of P; building q succeeds
producing q.pkg. -/
def envUnknownDep : Env where
  makepkg := fun name _ _ =>
    match name with
    | "P" => ⟨1, ["error: target not found: q"], []⟩
    | _ => ⟨0, [], ["q.pkg"]⟩
  packagelist := fun name => match name with | "q" => {"q.pkg"} | _ => ∅
  depMap := fun _ => []
  makedepMap := fun _ => []
  resolvable := fun _ => true

/-- Build tool that always succeeds at once, reporting nothing missing and
creating no files. -/
def envQuiet : Env where
  makepkg := fun _ _ _ => ⟨0, [], []⟩
  packagelist := fun _ => ∅
  depMap := fun _ => []
  makedepMap := fun _ => []
  resolvable := fun _ => true

/-- A manifest state recording one existing artifact of package W. -/
def stSavedW : MState := ⟨"W", {"w.pkg"}, ∅, ∅⟩

/-- A filesystem holding the saved manifest of W and its artifact. -/
def wSavedW : World where
  manifests := fun n => if n = "W" then .valid (saveJ stSavedW) else .absent
  pathExists := fun p => p == "w.pkg"

/-- The provider index of the spec example: three providers of name x at
versions 1, 2 and 3, in scan order. -/
def ldX : LocalDir :=
  ⟨some "d", false, [(⟨"x", "1"⟩, ["x1"]), (⟨"x", "2"⟩, ["x2"]), (⟨"x", "3"⟩, ["x3"])]⟩

/-- A scanned subdirectory whose srcinfo declares a provides list. -/
def entryProv : ScanEntry := ⟨"e", true, some ⟨"base", "2", some ["v"]⟩⟩

/-- A lazy split can only succeed when the operator's first character
occurs in the scanned token. -/
theorem lazySplit_none {h : Char} (t : List Char) :
    ∀ s : List Char, (∀ c ∈ s, c ≠ h) → lazySplit (h :: t) s = none := by
  intro s
  induction s with
  | nil => intro _; rfl
  | cons x rest ih =>
    intro hs
    have hrest : lazySplit (h :: t) rest = none :=
      ih fun c hc => hs c (List.mem_cons_of_mem _ hc)
    have hpre : ((h :: t).isPrefixOf rest) = false := by
      cases rest with
      | nil => rfl
      | cons y ys =>
        have hy : (h == y) = false := by
          have : y ≠ h := hs y (by simp)
          simp [this.symm]
        simp [List.isPrefixOf, hy]
    simp [lazySplit, hpre, hrest]

/-- Claim C9: parse_restriction scans a dependency token for the
comparators in the priority order >=, <=, >, <, = and splits it into a
bare name and a restriction; foo>=2 yields foo with restriction (>=, 2),
a>=b splits at >= rather than at > or =, and a token containing none of
the comparator characters is returned unchanged with no restriction. -/
theorem parseRestrictionSpec :
    parse_restriction "foo>=2" = ("foo", some ⟨">=", "2"⟩) ∧
    parse_restriction "a>=b" = ("a", some ⟨">=", "b"⟩) ∧
    parse_restriction "foo" = ("foo", none) ∧
    ∀ pkg : String, (∀ c ∈ pkg.data, c ≠ '>' ∧ c ≠ '<' ∧ c ≠ '=') →
      parse_restriction pkg = (pkg, none) := by
  refine ⟨by decide, by decide, by decide, ?_⟩
  intro pkg hpk
  have hgt : ∀ c ∈ pkg.data, c ≠ '>' := fun c hc => (hpk c hc).1
  have hlt : ∀ c ∈ pkg.data, c ≠ '<' := fun c hc => (hpk c hc).2.1
  have heq : ∀ c ∈ pkg.data, c ≠ '=' := fun c hc => (hpk c hc).2.2
  have e1 : lazySplit (">=" : String).data pkg.data = none := lazySplit_none _ _ hgt
  have e2 : lazySplit ("<=" : String).data pkg.data = none := lazySplit_none _ _ hlt
  have e3 : lazySplit (">" : String).data pkg.data = none := lazySplit_none _ _ hgt
  have e4 : lazySplit ("<" : String).data pkg.data = none := lazySplit_none _ _ hlt
  have e5 : lazySplit ("=" : String).data pkg.data = none := lazySplit_none _ _ heq
  simp [parse_restriction, tryOps, e1, e2, e3, e4, e5]

/-- Witness: a token with no comparator characters is parsed unchanged. -/
theorem parseRestrictionSpec_witness : parse_restriction "bar" = ("bar", none) :=
  parseRestrictionSpec.2.2.2 "bar" (by decide)

/-- Claim C6: providers returns the provider list of the first indexed
entry, in scan order, whose name matches and whose version satisfies every
restriction, and it raises ProviderNotFoundError carrying the attempted
restrictions exactly when no indexed entry with that name satisfies all
restrictions. -/
theorem providersSpec (ld : LocalDir) (name : String) (rs : List Restriction)
    (hpath : ld.path ≠ none) :
    (∀ e, ld.packages.find? (providerMatch name rs) = some e →
      ld.providers name rs = .ok e.2) ∧
    (ld.providers name rs = .error ⟨name, rs⟩ ↔
      ∀ e ∈ ld.packages, providerMatch name rs e = false) := by
  by_cases hp : ld.packages = []
  · constructor
    · intro e he
      rw [hp] at he
      simp at he
    · simp [LocalDir.providers, hp]
  · have hcond : ¬(ld.packages = [] ∨ ld.path = none) := by
      rintro (h | h)
      · exact hp h
      · exact hpath h
    cases hfind : ld.packages.find? (providerMatch name rs) with
    | some e =>
      have hok : ld.providers name rs = .ok e.2 := by
        simp [LocalDir.providers, hcond, hfind]
      constructor
      · intro e1 he1
        injection he1 with h2
        rw [← h2]
        exact hok
      · rw [hok]
        constructor
        · intro h
          cases h
        · intro hall
          have hmem := List.mem_of_find?_eq_some hfind
          have htrue := List.find?_some hfind
          rw [hall e hmem] at htrue
          cases htrue
    | none =>
      have herr : ld.providers name rs = .error ⟨name, rs⟩ := by
        simp [LocalDir.providers, hcond, hfind]
      constructor
      · intro e1 he1
        exact absurd he1 (by simp)
      · rw [herr]
        simp only [true_iff]
        intro e he
        have := List.find?_eq_none.mp hfind e he
        simpa using this

/-- Witness: in the index with providers of x at versions 1, 2 and 3, the
restriction gt-2 selects the version-3 provider; the restriction gt-3
raises the error carrying that restriction. -/
theorem providersSpec_witness :
    ldX.providers "x" [⟨">", "2"⟩] = .ok ["x3"] ∧
    ldX.providers "x" [⟨">", "3"⟩] = .error ⟨"x", [⟨">", "3"⟩]⟩ :=
  ⟨(providersSpec ldX "x" [⟨">", "2"⟩] (by decide)).1 (⟨"x", "3"⟩, ["x3"]) (by decide),
   (providersSpec ldX "x" [⟨">", "3"⟩] (by decide)).2.mpr (by decide)⟩

/-- Claim C8 counterexample: load on a manifest file whose contents are
not valid JSON raises out of json.load, which stands outside the block
catching KeyError, rather than returning an empty result. -/
theorem loadInvalidRaises_cex :
    Manifest.load (emptyMState "m") .invalid = .error () := rfl

/-- Claim C8 (amended): load returns the empty result without raising on a
missing manifest file and on a valid JSON manifest missing any of the
required keys; a file whose contents are not valid JSON instead raises. -/
theorem loadMissingEmpty (st : MState) (j : JManifest) :
    Manifest.load st .absent = .ok (st, false) ∧
    (j.name = none ∨ j.packages = none ∨ j.depends = none ∨ j.makedepends = none →
      ∃ st1, Manifest.load st (.valid j) = .ok (st1, false)) := by
  refine ⟨rfl, ?_⟩
  intro hmiss
  obtain ⟨n, p, d, m⟩ := j
  cases n with
  | none => exact ⟨st, rfl⟩
  | some nm =>
    cases p with
    | none => exact ⟨_, rfl⟩
    | some ps =>
      cases d with
      | none => exact ⟨_, rfl⟩
      | some ds =>
        cases m with
        | none => exact ⟨_, rfl⟩
        | some ms => simp at hmiss

/-- Witness: load of a valid manifest object missing the packages key
returns the empty result without raising. -/
theorem loadMissingEmpty_witness :
    ∃ st1, Manifest.load (emptyMState "m") (.valid ⟨some "n", none, some ∅, some ∅⟩) =
      .ok (st1, false) :=
  (loadMissingEmpty (emptyMState "m") ⟨some "n", none, some ∅, some ∅⟩).2 (by simp)

/-- Claim C10: load of a valid manifest missing the makedepends key
returns the empty result, yet pkgname, packages and depends have already
been overwritten from the file while makedepends keeps its prior value; in
particular the state is not the one the call began with. -/
theorem loadPartialOverwrite (st : MState) (nm : String) (ps ds : Finset String) :
    Manifest.load st (.valid ⟨some nm, some ps, some ds, none⟩) =
      .ok (⟨nm, ps, ds, st.makedepends⟩, false) ∧
    Manifest.load (emptyMState "a") (.valid ⟨some "b", some {"p"}, some ∅, none⟩) ≠
      .ok (emptyMState "a", false) := by
  refine ⟨rfl, ?_⟩
  intro h
  have h2 := congrArg (fun r => (Except.toOption r).map fun x => x.1.pkgname) h
  exact absurd h2 (by decide)

/-- Membership is preserved when add_package registers another pkgbuild. -/
theorem registered_mono_add (ps : List (Package × List String)) (k : Package)
    (pb : String) (k1 : Package) (pb1 : String)
    (h : registered k pb ps = true) : registered k pb (add_package ps k1 pb1) = true := by
  obtain ⟨e, he, hval⟩ := List.any_eq_true.mp h
  rw [Bool.and_eq_true] at hval
  obtain ⟨hk, hin⟩ := hval
  unfold add_package
  by_cases hany : ps.any (fun x => x.1 == k1)
  · rw [if_pos hany]
    apply List.any_eq_true.mpr
    by_cases hek : (e.1 == k1) = true
    · refine ⟨(e.1, e.2 ++ [pb1]), List.mem_map.mpr ⟨e, he, by rw [if_pos hek]⟩, ?_⟩
      have : pb ∈ e.2 ++ [pb1] := List.mem_append_left _ (of_decide_eq_true hin)
      simp [hk, this]
    · refine ⟨e, List.mem_map.mpr ⟨e, he, by rw [if_neg hek]⟩, ?_⟩
      simp [hk, of_decide_eq_true hin]
  · rw [if_neg hany]
    apply List.any_eq_true.mpr
    exact ⟨e, List.mem_append_left _ he, by simp [hk, of_decide_eq_true hin]⟩

/-- add_package registers the given pkgbuild under the given key. -/
theorem registered_add_self (ps : List (Package × List String)) (k : Package)
    (pb : String) : registered k pb (add_package ps k pb) = true := by
  unfold add_package
  by_cases hany : ps.any (fun x => x.1 == k)
  · rw [if_pos hany]
    obtain ⟨e, he, hek⟩ := List.any_eq_true.mp hany
    apply List.any_eq_true.mpr
    refine ⟨(e.1, e.2 ++ [pb]), List.mem_map.mpr ⟨e, he, by rw [if_pos hek]⟩, ?_⟩
    have : pb ∈ e.2 ++ [pb] := List.mem_append_right _ (by simp)
    simp [hek, this]
  · rw [if_neg hany]
    apply List.any_eq_true.mpr
    refine ⟨(k, [pb]), List.mem_append_right _ (by simp), by simp⟩

/-- Membership is preserved by the provides registration loop, also when
it aborts on a malformed entry. -/
theorem registered_mono_registerProvides (pkgver nm : String) :
    ∀ (provs : List String) (acc : List (Package × List String)) (k : Package) (pb : String),
    registered k pb acc = true →
    registered k pb (scanPackages (registerProvides pkgver nm provs acc)) = true := by
  intro provs
  induction provs with
  | nil => intro acc k pb h; exact h
  | cons q qs ih =>
    intro acc k pb h
    simp only [registerProvides]
    cases parseProvide pkgver q with
    | some kq => exact ih _ _ _ (registered_mono_add _ _ _ _ _ h)
    | none => exact h

/-- A provides loop that completes registers every listed name under the
key it parses to. -/
theorem registered_registerProvides_ok (pkgver nm : String) :
    ∀ (provs : List String) (acc : List (Package × List String)) (p : String) (k : Package)
      (res : List (Package × List String)),
    p ∈ provs → parseProvide pkgver p = some k →
    registerProvides pkgver nm provs acc = .ok res →
    registered k nm res = true := by
  intro provs
  induction provs with
  | nil => intro acc p k res hp _ _; cases hp
  | cons q qs ih =>
    intro acc p k res hp hk hok
    simp only [registerProvides] at hok
    cases hq : parseProvide pkgver q with
    | none => rw [hq] at hok; simp at hok
    | some kq =>
      rw [hq] at hok
      dsimp only at hok
      rcases List.mem_cons.mp hp with rfl | hp2
      · rw [hk] at hq
        injection hq with hkk
        subst hkk
        have hmono := registered_mono_registerProvides pkgver nm qs (add_package acc k nm) k nm
          (registered_add_self _ _ _)
        rw [hok] at hmono
        exact hmono
      · exact ih _ p k res hp2 hk hok

/-- A provides list holding an entry with three or more equals-separated
fields makes the loop raise. -/
theorem registerProvides_bad_errors (pkgver nm : String) :
    ∀ (provs : List String) (acc : List (Package × List String)) (p : String),
    p ∈ provs → parseProvide pkgver p = none →
    ∃ acc1, registerProvides pkgver nm provs acc = .error acc1 := by
  intro provs
  induction provs with
  | nil => intro acc p hp _; cases hp
  | cons q qs ih =>
    intro acc p hp hbad
    simp only [registerProvides]
    cases hq : parseProvide pkgver q with
    | none => exact ⟨acc, rfl⟩
    | some kq =>
      rcases List.mem_cons.mp hp with rfl | hp2
      · rw [hbad] at hq
        cases hq
      · exact ih _ p hp2 hbad

/-- Membership is preserved by processing one scan entry, also on abort. -/
theorem registered_mono_registerEntry (ps : List (Package × List String))
    (e : ScanEntry) (k : Package) (pb : String)
    (h : registered k pb ps = true) :
    registered k pb (scanPackages (registerEntry ps e)) = true := by
  obtain ⟨enm, ed, esrc⟩ := e
  cases ed with
  | false => exact h
  | true =>
    cases esrc with
    | none => exact h
    | some si =>
      obtain ⟨pbase, pver, prov⟩ := si
      cases prov with
      | none => exact registered_mono_add _ _ _ _ _ h
      | some provs => exact registered_mono_registerProvides _ _ provs _ _ _ h

/-- Membership is preserved by the remainder of the scan, also on abort. -/
theorem registered_mono_updateScan (entries : List ScanEntry) :
    ∀ (ps : List (Package × List String)) (k : Package) (pb : String),
    registered k pb ps = true →
    registered k pb (scanPackages (updateScan entries ps)) = true := by
  induction entries with
  | nil => intro ps k pb h; exact h
  | cons e rest ih =>
    intro ps k pb h
    simp only [updateScan]
    have hre := registered_mono_registerEntry ps e k pb h
    cases hent : registerEntry ps e with
    | ok ps1 =>
      rw [hent] at hre
      exact ih ps1 k pb hre
    | error ps1 =>
      rw [hent] at hre
      exact hre

/-- Membership is preserved into the result of a completing scan. -/
theorem registered_updateScan_ok (entries : List ScanEntry)
    (ps res : List (Package × List String)) (k : Package) (pb : String)
    (hok : updateScan entries ps = .ok res)
    (h : registered k pb ps = true) : registered k pb res = true := by
  have hmono := registered_mono_updateScan entries ps k pb h
  rw [hok] at hmono
  exact hmono

/-- Claim C7 counterexample: a subdirectory declaring a provides list is
registered only under its provided names, not also under its base
identity, contrary to the claim that both are registered. -/
theorem providesSkipsBase_cex :
    entryProv.srcinfo = some ⟨"base", "2", some ["v"]⟩ ∧
    updateScan [entryProv] [] = .ok [(⟨"v", "2"⟩, ["e"])] ∧
    registered ⟨"base", "2"⟩ "e" [(⟨"v", "2"⟩, ["e"])] = false ∧
    registered ⟨"v", "2"⟩ "e" [(⟨"v", "2"⟩, ["e"])] = true :=
  ⟨by decide, rfl, by decide, by decide⟩

/-- Claim C7 (amended): the scan of LocalDir.update processes every
subdirectory; a subdirectory without a parseable build description is
skipped while the scan continues over the rest; a parseable subdirectory
is registered under its base identity when no provides list is declared,
and under every provided name that parses when one is, whenever the scan
completes; a provides entry splitting into three or more equals-separated
fields instead raises an uncaught TypeError that aborts the whole scan. -/
theorem updateRegisters (e : ScanEntry) (rest : List ScanEntry)
    (ps : List (Package × List String)) :
    (e.srcinfo = none → updateScan (e :: rest) ps = updateScan rest ps) ∧
    (∀ si, e.isDir = true → e.srcinfo = some si → si.provides = none →
      registered ⟨si.pkgbase, si.pkgver⟩ e.name
        (scanPackages (updateScan (e :: rest) ps)) = true) ∧
    (∀ si provs p k res, e.isDir = true → e.srcinfo = some si → si.provides = some provs →
      p ∈ provs → parseProvide si.pkgver p = some k →
      updateScan (e :: rest) ps = .ok res →
      registered k e.name res = true) ∧
    (∀ si provs p, e.isDir = true → e.srcinfo = some si → si.provides = some provs →
      p ∈ provs → parseProvide si.pkgver p = none →
      ∃ ps1, updateScan (e :: rest) ps = .error ps1) := by
  obtain ⟨enm, ed, esrc⟩ := e
  refine ⟨?_, ?_, ?_, ?_⟩
  · intro hsrc
    cases hsrc
    cases ed <;> rfl
  · intro si hd hsrc hprov
    cases hd
    cases hsrc
    obtain ⟨pbase, pver, prov⟩ := si
    cases hprov
    show registered ⟨pbase, pver⟩ enm
      (scanPackages (updateScan rest (add_package ps ⟨pbase, pver⟩ enm))) = true
    exact registered_mono_updateScan rest _ _ _ (registered_add_self _ _ _)
  · intro si provs p k res hd hsrc hprov hp hk hok
    cases hd
    cases hsrc
    obtain ⟨pbase, pver, prov⟩ := si
    cases hprov
    cases hrp : registerProvides pver enm provs ps with
    | error ps1 =>
      have habort : updateScan (⟨enm, true, some ⟨pbase, pver, some provs⟩⟩ :: rest) ps =
          Except.error ps1 := by
        show (match registerProvides pver enm provs ps with
          | Except.ok ps2 => updateScan rest ps2
          | Except.error ps2 => Except.error ps2) = Except.error ps1
        rw [hrp]
      rw [habort] at hok
      cases hok
    | ok ps1 =>
      have hstep : updateScan (⟨enm, true, some ⟨pbase, pver, some provs⟩⟩ :: rest) ps =
          updateScan rest ps1 := by
        show (match registerProvides pver enm provs ps with
          | Except.ok ps2 => updateScan rest ps2
          | Except.error ps2 => Except.error ps2) = updateScan rest ps1
        rw [hrp]
      rw [hstep] at hok
      exact registered_updateScan_ok rest ps1 res k enm hok
        (registered_registerProvides_ok pver enm provs ps p k ps1 hp hk hrp)
  · intro si provs p hd hsrc hprov hp hbad
    cases hd
    cases hsrc
    obtain ⟨pbase, pver, prov⟩ := si
    cases hprov
    obtain ⟨acc1, hrp⟩ := registerProvides_bad_errors pver enm provs ps p hp hbad
    refine ⟨acc1, ?_⟩
    show (match registerProvides pver enm provs ps with
      | Except.ok ps2 => updateScan rest ps2
      | Except.error ps2 => Except.error ps2) = Except.error acc1
    rw [hrp]

/-- Witness: a subdirectory without a provides list is registered under
its base identity, and a failing subdirectory before it is skipped. -/
theorem updateRegisters_witness :
    updateScan [⟨"bad", true, none⟩] [] = updateScan [] [] ∧
    registered ⟨"w", "1"⟩ "d"
      (scanPackages (updateScan [⟨"d", true, some ⟨"w", "1", none⟩⟩] [])) = true :=
  ⟨(updateRegisters ⟨"bad", true, none⟩ [] []).1 rfl,
   (updateRegisters ⟨"d", true, some ⟨"w", "1", none⟩⟩ [] []).2.1 ⟨"w", "1", none⟩ rfl rfl rfl⟩

/-- Unfolding of buildFuel on the first iteration without rebuild. -/
theorem buildFuel_first (env : Env) (fuel : Nat) (name : String) (st : MState) (w : World) :
    buildFuel env (fuel + 1) ⟨name, false, 1, st, w⟩ =
      match Manifest.load st (w.manifests name) with
      | .error _ => some .exn
      | .ok (st1, loaded) =>
        if loaded && verifyB w (runtime_packages st1) then
          some (.ok ⟨runtime_packages st1, st1, w, 0, []⟩)
        else buildStep2 env (buildFuel env fuel) name false 1 (resetState st1) w := rfl

/-- Unfolding of buildFuel on the first iteration with rebuild: the cache
check and the reset are both skipped and the build attempt starts from the
current tracked sets. -/
theorem buildFuel_rebuild (env : Env) (fuel : Nat) (name : String) (st : MState) (w : World) :
    buildFuel env (fuel + 1) ⟨name, true, 1, st, w⟩ =
      buildStep2 env (buildFuel env fuel) name true 1 st w := rfl

/-- Unfolding of buildFuel on later iterations: straight to the attempt. -/
theorem buildFuel_iter_ne (env : Env) (fuel : Nat) (name : String) (rb : Bool) (iter : Nat)
    (st : MState) (w : World) (hiter : iter ≠ 1) :
    buildFuel env (fuel + 1) ⟨name, rb, iter, st, w⟩ =
      buildStep2 env (buildFuel env fuel) name rb iter st w := by
  show buildBody env (buildFuel env fuel) ⟨name, rb, iter, st, w⟩ = _
  unfold buildBody
  rw [if_neg hiter]

/-- A loaded manifest written by save restores exactly the saved state and
is truthy. -/
theorem load_saveJ (st st1 : MState) :
    Manifest.load st (.valid (saveJ st1)) = .ok (st1, true) := rfl

/-- A manifest that loads truthy and verifies is a cache hit: the runtime
packages of the saved state are returned with no makepkg invocation. -/
theorem buildFuel_cacheHit (env : Env) (fuel : Nat) (name : String) (st st1 : MState)
    (w : World) (hman : w.manifests name = .valid (saveJ st1))
    (hver : verifyB w (runtime_packages st1) = true) :
    buildFuel env (fuel + 1) ⟨name, false, 1, st, w⟩ =
      some (.ok ⟨runtime_packages st1, st1, w, 0, []⟩) := by
  rw [buildFuel_first, hman, load_saveJ]
  simp [hver]

/-- A successful attempt whose artifacts verify saves the manifest and
returns the runtime packages of the updated state. -/
theorem buildStep2_success (env : Env) (child : BIn → Option BRes) (name : String)
    (rb : Bool) (iter : Nat) (st : MState) (w : World)
    (hexit : (env.makepkg name (build_depends st) w).exit = 0)
    (hver : verifyB (addPaths w (env.makepkg name (build_depends st) w).created)
      (runtime_packages { st with packages := st.packages ∪ env.packagelist name }) = true) :
    buildStep2 env child name rb iter st w =
      some (.ok ⟨runtime_packages { st with packages := st.packages ∪ env.packagelist name },
        { st with packages := st.packages ∪ env.packagelist name },
        saveW (addPaths w (env.makepkg name (build_depends st) w).created) name
          { st with packages := st.packages ∪ env.packagelist name }, 1, []⟩) := by
  unfold buildStep2
  rw [if_pos hexit, if_pos hver]

/-- A failing attempt at an iteration other than the first returns the
empty set at once, with no dependency discovery and no recursion. -/
theorem buildStep2_fail_ne1 (env : Env) (child : BIn → Option BRes) (name : String)
    (rb : Bool) (iter : Nat) (st : MState) (w : World) (hiter : iter ≠ 1)
    (hexit : (env.makepkg name (build_depends st) w).exit ≠ 0) :
    buildStep2 env child name rb iter st w =
      some (.ok ⟨∅, st, addPaths w (env.makepkg name (build_depends st) w).created, 1, []⟩) := by
  unfold buildStep2
  rw [if_neg hexit, if_neg hiter]

/-- Claim C2 counterexample: a build that succeeds after discovering and
building the build-only dependency b returns only the runtime packages;
the tracked all_packages set additionally holds the makedepends artifact
b.pkg, so the returned set is not all_packages. -/
theorem buildIgnoresMakedepends_cex :
    retOf (buildTop envMakedep 3 "A" false (emptyMState "A") wAbsent) = some {"A.pkg"} ∧
    (stOf (buildTop envMakedep 3 "A" false (emptyMState "A") wAbsent)).map all_packages
      = some {"A.pkg", "b.pkg"} ∧
    retOf (buildTop envMakedep 3 "A" false (emptyMState "A") wAbsent) ≠
      (stOf (buildTop envMakedep 3 "A" false (emptyMState "A") wAbsent)).map all_packages := by
  decide

/-- Claim C2 (amended): a successful build returns the runtime packages,
the union of packages and depends only: the cache hit returns the runtime
set recorded in the manifest, and a fresh attempt whose artifacts verify
saves the manifest and returns the runtime set of the updated state;
build-only makedepends artifacts are not in the returned set. -/
theorem buildReturnsRuntime (env : Env) (child : BIn → Option BRes) (fuel : Nat)
    (name : String) (rb : Bool) (iter : Nat) (st st1 : MState) (w : World) :
    (w.manifests name = .valid (saveJ st1) → verifyB w (runtime_packages st1) = true →
      retOf (buildTop env (fuel + 1) name false st w) = some (st1.packages ∪ st1.depends)) ∧
    ((env.makepkg name (build_depends st) w).exit = 0 →
      verifyB (addPaths w (env.makepkg name (build_depends st) w).created)
        (runtime_packages { st with packages := st.packages ∪ env.packagelist name }) = true →
      retOf (buildStep2 env child name rb iter st w) =
        some ((st.packages ∪ env.packagelist name) ∪ st.depends)) := by
  constructor
  · intro hman hver
    unfold buildTop
    rw [buildFuel_cacheHit env fuel name st st1 w hman hver]
    rfl
  · intro hexit hver
    rw [buildStep2_success env child name rb iter st w hexit hver]
    rfl

/-- Witness: a fresh successful build of R returns its runtime set. -/
theorem buildReturnsRuntime_witness :
    retOf (buildStep2 envRebuild (buildFuel envRebuild 0) "R" false 1 (emptyMState "R") wAbsent)
      = some (((∅ : Finset String) ∪ envRebuild.packagelist "R") ∪ ∅) :=
  (buildReturnsRuntime envRebuild (buildFuel envRebuild 0) 0 "R" false 1 (emptyMState "R")
    (emptyMState "R") wAbsent).2 (by decide) (by decide)

/-- Claim C3 counterexample: build with rebuild true does not reset the
tracked sets: a builder already tracking the stale path old returns a set
still containing old, while the same run started from the reset state
returns only the freshly built artifact, and the two sets differ. -/
theorem rebuildNoReset_cex :
    retOf (buildTop envRebuild 1 "R" true stOldR wOld) = some {"old", "R.pkg"} ∧
    retOf (buildTop envRebuild 1 "R" true (resetState stOldR) wOld) = some {"R.pkg"} ∧
    retOf (buildTop envRebuild 1 "R" true stOldR wOld) ≠
      retOf (buildTop envRebuild 1 "R" true (resetState stOldR) wOld) := by
  decide

/-- Claim C3 (amended): when the saved manifest loads successfully and its
recorded artifacts all exist, a call of build with rebuild false issues no
makepkg invocation (zero passes) and returns the runtime set the first
call recorded; with rebuild true the cache check is skipped and the
attempt starts from the current tracked sets without resetting them. -/
theorem cachedBuildNoInvoke (env : Env) (fuel : Nat) (name : String)
    (st st1 : MState) (w : World) :
    (w.manifests name = .valid (saveJ st1) → verifyB w (runtime_packages st1) = true →
      buildTop env (fuel + 1) name false st w =
        some (.ok ⟨runtime_packages st1, st1, w, 0, []⟩)) ∧
    buildTop env (fuel + 1) name true st w =
      buildStep2 env (buildFuel env fuel) name true 1 st w := by
  constructor
  · intro hman hver
    exact buildFuel_cacheHit env fuel name st st1 w hman hver
  · exact buildFuel_rebuild env fuel name st w

/-- Witness: a second build of W with its manifest saved and artifact
present is a cache hit with zero makepkg invocations. -/
theorem cachedBuildNoInvoke_witness :
    buildTop envQuiet 1 "W" false (emptyMState "W") wSavedW =
      some (.ok ⟨runtime_packages stSavedW, stSavedW, wSavedW, 0, []⟩) :=
  (cachedBuildNoInvoke envQuiet 0 "W" (emptyMState "W") stSavedW wSavedW).1
    (by decide) (by decide)

/-- Claim C5 counterexample: the build of P discovers the name q, which is
declared in neither the depends nor the makedepends map; dependency_type
classifies it as none rather than as build-only, and although the child
build of q produced q.pkg, that artifact is merged into neither the
depends nor the makedepends set. -/
theorem unknownDepDropped_cex :
    dependency_type envUnknownDep "P" "q" = none ∧
    ¬ "q" ∈ envUnknownDep.depMap "P" ∧
    kidsOf (buildTop envUnknownDep 2 "P" false (emptyMState "P") wAbsent)
      = some [("q", 1, {"q.pkg"})] ∧
    (stOf (buildTop envUnknownDep 2 "P" false (emptyMState "P") wAbsent)).map
      (fun s => s.makedepends) = some ∅ ∧
    (stOf (buildTop envUnknownDep 2 "P" false (emptyMState "P") wAbsent)).map
      (fun s => s.depends) = some ∅ := by
  decide

/-- Claim C5 (amended): a discovered dependency name is classified as
runtime when it appears in the declared runtime-dependency map and as
build-only when it appears only in the declared build-dependency map, and
the child's produced artifact set is merged into the corresponding set of
the parent state; a name appearing in neither map is classified as none
and its artifacts are merged into neither set. The discovery loop performs
exactly this merge for every matching line. -/
theorem classifyMerge (env : Env) (pname dep : String) (pkgs : Finset String) (st : MState) :
    (dep ∈ env.depMap pname →
      mergeDep env pname dep pkgs st = { st with depends := st.depends ∪ pkgs }) ∧
    (dep ∉ env.depMap pname → dep ∈ env.makedepMap pname →
      mergeDep env pname dep pkgs st = { st with makedepends := st.makedepends ∪ pkgs }) ∧
    (dep ∉ env.depMap pname → dep ∉ env.makedepMap pname →
      mergeDep env pname dep pkgs st = st) ∧
    (∀ (child : BIn → Option BRes) (rb : Bool) (line : String) (rest : List String)
      (w : World) (ks : List BTrace) (o : BOut),
      parseErrLine line = some dep → env.resolvable dep = true →
      child ⟨dep, rb, 1, emptyMState dep, w⟩ = some (.ok o) →
      procLines env child pname rb (line :: rest) st w ks =
        procLines env child pname rb rest (mergeDep env pname dep o.st.packages st) o.w
          (ks ++ [.node dep o.passes o.st.packages o.kids])) := by
  refine ⟨?_, ?_, ?_, ?_⟩
  · intro h
    unfold mergeDep dependency_type
    rw [if_pos h]
    simp
  · intro h1 h2
    unfold mergeDep dependency_type
    rw [if_neg h1, if_pos h2]
    simp
  · intro h1 h2
    unfold mergeDep dependency_type
    rw [if_neg h1, if_neg h2]
    simp
  · intro child rb line rest w ks o hline hres hchild
    show (match parseErrLine line with
      | none => procLines env child pname rb rest st w ks
      | some dep1 =>
        if env.resolvable dep1 then
          match child ⟨dep1, rb, 1, emptyMState dep1, w⟩ with
          | none => none
          | some BRes.exn => some (Except.error ())
          | some (BRes.ok o1) =>
            procLines env child pname rb rest (mergeDep env pname dep1 o1.st.packages st) o1.w
              (ks ++ [BTrace.node dep1 o1.passes o1.st.packages o1.kids])
        else some (Except.error ())) = _
    rw [hline]
    dsimp only
    rw [if_pos hres, hchild]

/-- Witness: a name declared only in the makedepends map is merged into
the makedepends set. -/
theorem classifyMerge_witness :
    mergeDep envMakedep "A" "b" {"b.pkg"} (emptyMState "A") =
      { emptyMState "A" with makedepends := (emptyMState "A").makedepends ∪ {"b.pkg"} } :=
  (classifyMerge envMakedep "A" "b" {"b.pkg"} (emptyMState "A")).2.1 (by decide) (by decide)

/-- Every child node appended by the discovery loop has bounded passes,
when every result the child call can produce does. -/
theorem procLines_traceOK (env : Env) (child : BIn → Option BRes) (pname : String)
    (rb : Bool)
    (hchild : ∀ a o1, child a = some (.ok o1) → o1.passes ≤ 2 ∧ ∀ t ∈ o1.kids, TraceOK t) :
    ∀ (lines : List String) (st : MState) (w : World) (ks : List BTrace)
      (st1 : MState) (w1 : World) (ks1 : List BTrace),
    (∀ t ∈ ks, TraceOK t) →
    procLines env child pname rb lines st w ks = some (.ok (st1, w1, ks1)) →
    ∀ t ∈ ks1, TraceOK t := by
  intro lines
  induction lines with
  | nil =>
    intro st w ks st1 w1 ks1 hks h
    simp only [procLines, Option.some.injEq] at h
    injection h with h2
    simp only [Prod.mk.injEq] at h2
    obtain ⟨-, -, rfl⟩ := h2
    exact hks
  | cons line rest ih =>
    intro st w ks st1 w1 ks1 hks h
    simp only [procLines] at h
    cases hline : parseErrLine line with
    | none =>
      rw [hline] at h
      exact ih st w ks st1 w1 ks1 hks h
    | some dep =>
      rw [hline] at h
      dsimp only at h
      cases hres : env.resolvable dep with
      | false => rw [hres] at h; simp at h
      | true =>
        rw [hres] at h
        simp only [if_true] at h
        cases hch : child ⟨dep, rb, 1, emptyMState dep, w⟩ with
        | none => rw [hch] at h; simp at h
        | some b =>
          cases b with
          | exn => rw [hch] at h; simp at h
          | ok o =>
            rw [hch] at h
            refine ih _ _ _ st1 w1 ks1 ?_ h
            intro t ht
            rcases List.mem_append.mp ht with ht | ht
            · exact hks t ht
            · rcases List.mem_singleton.mp ht with rfl
              obtain ⟨hp, hk⟩ := hchild _ o hch
              exact TraceOK.node hp hk

/-- Case analysis of the attempt phase: the level itself issues one
invocation plus at most the single retry, the retry issues exactly one,
and all appended child traces are bounded. -/
theorem buildStep2_passes (env : Env) (child : BIn → Option BRes) (name : String)
    (rb : Bool) (iter : Nat) (st : MState) (w : World) (o : BOut)
    (hchild : ∀ a o1, child a = some (.ok o1) →
      ((o1.passes ≤ 2 ∧ ∀ t ∈ o1.kids, TraceOK t) ∧ (a.iter ≠ 1 → o1.passes = 1 ∧ o1.kids = [])))
    (h : buildStep2 env child name rb iter st w = some (.ok o)) :
    (o.passes ≤ 2 ∧ ∀ t ∈ o.kids, TraceOK t) ∧ (iter ≠ 1 → o.passes = 1 ∧ o.kids = []) := by
  unfold buildStep2 at h
  by_cases hexit : (env.makepkg name (build_depends st) w).exit = 0
  · rw [if_pos hexit] at h
    by_cases hver : verifyB (addPaths w (env.makepkg name (build_depends st) w).created)
        (runtime_packages { st with packages := st.packages ∪ env.packagelist name }) = true
    · rw [if_pos hver] at h
      simp only [Option.some.injEq, BRes.ok.injEq] at h
      subst h
      refine ⟨⟨?_, ?_⟩, fun _ => ⟨rfl, rfl⟩⟩
      · show (1 : Nat) ≤ 2
        decide
      · show ∀ t ∈ ([] : List BTrace), TraceOK t
        simp
    · rw [if_neg hver] at h
      simp only [Option.some.injEq, BRes.ok.injEq] at h
      subst h
      refine ⟨⟨?_, ?_⟩, fun _ => ⟨rfl, rfl⟩⟩
      · show (1 : Nat) ≤ 2
        decide
      · show ∀ t ∈ ([] : List BTrace), TraceOK t
        simp
  · rw [if_neg hexit] at h
    by_cases hiter : iter = 1
    · rw [if_pos hiter] at h
      cases hpl : procLines env child name rb (env.makepkg name (build_depends st) w).stdout st
          (addPaths w (env.makepkg name (build_depends st) w).created) [] with
      | none => rw [hpl] at h; simp at h
      | some r =>
        cases r with
        | error e => rw [hpl] at h; simp at h
        | ok trip =>
          obtain ⟨st2, w2, ks⟩ := trip
          rw [hpl] at h
          dsimp only at h
          have hksOK : ∀ t ∈ ks, TraceOK t :=
            procLines_traceOK env child name rb (fun a o1 hc => (hchild a o1 hc).1) _ _ _ _
              st2 w2 ks (by simp) hpl
          by_cases hbd : build_depends st2 ≠ ∅
          · rw [if_pos hbd] at h
            cases hch : child ⟨name, rb, iter + 1, st2, w2⟩ with
            | none => rw [hch] at h; simp at h
            | some b =>
              cases b with
              | exn => rw [hch] at h; simp at h
              | ok o2 =>
                rw [hch] at h
                simp only [Option.some.injEq, BRes.ok.injEq] at h
                subst h
                have hne1 : (⟨name, rb, iter + 1, st2, w2⟩ : BIn).iter ≠ 1 := by
                  show iter + 1 ≠ 1
                  omega
                obtain ⟨hp2, hk2⟩ := (hchild _ o2 hch).2 hne1
                constructor
                · constructor
                  · show 1 + o2.passes ≤ 2
                    omega
                  · show ∀ t ∈ ks ++ o2.kids, TraceOK t
                    intro t ht
                    rcases List.mem_append.mp ht with ht | ht
                    · exact hksOK t ht
                    · rw [hk2] at ht
                      cases ht
                · intro hne
                  exact absurd hiter hne
          · rw [if_neg hbd] at h
            simp only [Option.some.injEq, BRes.ok.injEq] at h
            subst h
            refine ⟨⟨?_, hksOK⟩, fun hne => absurd hiter hne⟩
            show (1 : Nat) ≤ 2
            decide
    · rw [if_neg hiter] at h
      simp only [Option.some.injEq, BRes.ok.injEq] at h
      subst h
      refine ⟨⟨?_, ?_⟩, fun _ => ⟨rfl, rfl⟩⟩
      · show (1 : Nat) ≤ 2
        decide
      · show ∀ t ∈ ([] : List BTrace), TraceOK t
        simp

/-- Per call of the recursive build, at most two makepkg invocations are
issued at the top level and at every child level, and calls at an
iteration other than the first issue exactly one with no recursion. -/
theorem buildFuel_passes (env : Env) :
    ∀ (fuel : Nat) (args : BIn) (o : BOut),
    buildFuel env fuel args = some (.ok o) →
    (o.passes ≤ 2 ∧ ∀ t ∈ o.kids, TraceOK t) ∧ (args.iter ≠ 1 → o.passes = 1 ∧ o.kids = []) := by
  intro fuel
  induction fuel with
  | zero =>
    intro args o h
    simp [buildFuel] at h
  | succ fuel ih =>
    intro args o h
    obtain ⟨name, rb, iter, st, w⟩ := args
    by_cases hiter : iter = 1
    · subst hiter
      cases rb with
      | false =>
        rw [buildFuel_first] at h
        cases hload : Manifest.load st (w.manifests name) with
        | error e => rw [hload] at h; simp at h
        | ok p =>
          obtain ⟨st1, loaded⟩ := p
          rw [hload] at h
          dsimp only at h
          by_cases hc : (loaded && verifyB w (runtime_packages st1)) = true
          · rw [if_pos hc] at h
            simp only [Option.some.injEq, BRes.ok.injEq] at h
            subst h
            refine ⟨⟨?_, ?_⟩, fun hne => absurd rfl hne⟩
            · show (0 : Nat) ≤ 2
              decide
            · show ∀ t ∈ ([] : List BTrace), TraceOK t
              simp
          · rw [if_neg hc] at h
            have := buildStep2_passes env (buildFuel env fuel) name false 1 (resetState st1) w o
              (fun a o1 hc1 => ih a o1 hc1) h
            exact ⟨this.1, fun hne => absurd rfl hne⟩
      | true =>
        rw [buildFuel_rebuild] at h
        have := buildStep2_passes env (buildFuel env fuel) name true 1 st w o
          (fun a o1 hc1 => ih a o1 hc1) h
        exact ⟨this.1, fun hne => absurd rfl hne⟩
    · rw [buildFuel_iter_ne env fuel name rb iter st w hiter] at h
      exact buildStep2_passes env (buildFuel env fuel) name rb iter st w o
        (fun a o1 hc1 => ih a o1 hc1) h

/-- Claim C4: dependency discovery happens only when the attempt counter
is 1; at most one retry is issued per level, so each level of the call
tree issues at most two makepkg invocations; and a failed attempt at a
non-first iteration returns the empty artifact set at once, with no
discovery and no recursion. -/
theorem atMostTwoPasses (env : Env) (fuel : Nat) (args : BIn) :
    (∀ o, buildFuel env fuel args = some (.ok o) →
      (o.passes ≤ 2 ∧ ∀ t ∈ o.kids, TraceOK t) ∧
      (args.iter ≠ 1 → o.passes = 1 ∧ o.kids = [])) ∧
    (args.iter ≠ 1 → (env.makepkg args.name (build_depends args.st) args.w).exit ≠ 0 →
      buildFuel env (fuel + 1) args =
        some (.ok ⟨∅, args.st,
          addPaths args.w (env.makepkg args.name (build_depends args.st) args.w).created,
          1, []⟩)) := by
  obtain ⟨name, rb, iter, st, w⟩ := args
  constructor
  · intro o h
    exact buildFuel_passes env fuel _ o h
  · intro hiter hexit
    rw [buildFuel_iter_ne env fuel name rb iter st w hiter]
    exact buildStep2_fail_ne1 env (buildFuel env fuel) name rb iter st w hiter hexit

/-- Witness: a failing second-iteration attempt of A returns the empty
set with one invocation and no recursion. -/
theorem atMostTwoPasses_witness :
    buildFuel envCycle 1 ⟨"A", false, 2, emptyMState "A", wAbsent⟩ =
      some (.ok ⟨∅, emptyMState "A",
        addPaths wAbsent
          (envCycle.makepkg "A" (build_depends (emptyMState "A")) wAbsent).created,
        1, []⟩) :=
  (atMostTwoPasses envCycle 0 ⟨"A", false, 2, emptyMState "A", wAbsent⟩).2
    (by decide) (by decide)

/-- Under the cyclic build tool the recursive build of A, and likewise of
B, completes within no recursion-depth bound: every first failed attempt
discovers the other name and recurses into a fresh child build of it,
and no manifest is ever saved. -/
theorem cycle_diverges :
    ∀ (fuel : Nat) (st : MState) (w : World),
    w.manifests "A" = .absent → w.manifests "B" = .absent →
    buildFuel envCycle fuel ⟨"A", false, 1, st, w⟩ = none ∧
    buildFuel envCycle fuel ⟨"B", false, 1, st, w⟩ = none := by
  intro fuel
  induction fuel with
  | zero => intro st w _ _; exact ⟨rfl, rfl⟩
  | succ fuel ih =>
    intro st w hA hB
    constructor
    · have hload : Manifest.load st (w.manifests "A") = .ok (st, false) := by
        rw [hA]
        rfl
      rw [buildFuel_first, hload]
      dsimp only
      rw [if_neg (by simp)]
      have hm : envCycle.makepkg "A" (build_depends (resetState st)) w =
          ⟨1, ["error: target not found: B"], []⟩ := rfl
      have hchB : buildFuel envCycle fuel ⟨"B", false, 1, emptyMState "B", addPaths w []⟩ =
          none := (ih (emptyMState "B") (addPaths w []) hA hB).2
      have hpe : parseErrLine "error: target not found: B" = some "B" := rfl
      unfold buildStep2
      rw [hm]
      dsimp only
      rw [if_neg (by decide : ¬((1 : Int) = 0)), if_pos rfl]
      simp only [procLines]
      rw [hpe]
      dsimp only
      rw [if_pos (show envCycle.resolvable "B" = true from rfl), hchB]
    · have hload : Manifest.load st (w.manifests "B") = .ok (st, false) := by
        rw [hB]
        rfl
      rw [buildFuel_first, hload]
      dsimp only
      rw [if_neg (by simp)]
      have hm : envCycle.makepkg "B" (build_depends (resetState st)) w =
          ⟨1, ["error: target not found: A"], []⟩ := rfl
      have hchA : buildFuel envCycle fuel ⟨"A", false, 1, emptyMState "A", addPaths w []⟩ =
          none := (ih (emptyMState "A") (addPaths w []) hA hB).1
      have hpe : parseErrLine "error: target not found: A" = some "A" := rfl
      unfold buildStep2
      rw [hm]
      dsimp only
      rw [if_neg (by decide : ¬((1 : Int) = 0)), if_pos rfl]
      simp only [procLines]
      rw [hpe]
      dsimp only
      rw [if_pos (show envCycle.resolvable "A" = true from rfl), hchA]

/-- Claim C1 counterexample: under the cyclic build tool behavior the
recursive build of A does not terminate: there is no recursion-depth
bound within which build returns a result. -/
theorem buildCycleDiverges_cex :
    ¬ ∃ (fuel : Nat) (r : BRes),
      buildTop envCycle fuel "A" false (emptyMState "A") wAbsent = some r := by
  rintro ⟨fuel, r, h⟩
  have hd := (cycle_diverges fuel (emptyMState "A") wAbsent rfl rfl).1
  unfold buildTop at h
  rw [hd] at h
  cases h

/-- The attempt phase cannot run out of fuel on a later iteration: it
never consults the recursive call. -/
theorem buildStep2_ne_none_iter_ne1 (env : Env) (child : BIn → Option BRes) (name : String)
    (rb : Bool) (iter : Nat) (st : MState) (w : World) (hiter : iter ≠ 1) :
    buildStep2 env child name rb iter st w ≠ none := by
  unfold buildStep2
  by_cases hexit : (env.makepkg name (build_depends st) w).exit = 0
  · rw [if_pos hexit]
    by_cases hver : verifyB (addPaths w (env.makepkg name (build_depends st) w).created)
        (runtime_packages { st with packages := st.packages ∪ env.packagelist name }) = true
    · rw [if_pos hver]
      simp
    · rw [if_neg hver]
      simp
  · rw [if_neg hexit, if_neg hiter]
    simp

/-- The recursive build cannot run out of fuel on a later iteration. -/
theorem buildFuel_ne_none_iter_ne1 (env : Env) (fuel : Nat) (args : BIn)
    (hiter : args.iter ≠ 1) : buildFuel env (fuel + 1) args ≠ none := by
  obtain ⟨name, rb, iter, st, w⟩ := args
  rw [buildFuel_iter_ne env fuel name rb iter st w hiter]
  exact buildStep2_ne_none_iter_ne1 env (buildFuel env fuel) name rb iter st w hiter

/-- The discovery loop completes when every child build it can launch
completes. -/
theorem procLines_ne_none (env : Env) (child : BIn → Option BRes) (pname : String)
    (rb : Bool) :
    ∀ (lines : List String) (st : MState) (w : World) (ks : List BTrace),
    (∀ dep, dep ∈ lines.filterMap parseErrLine →
      ∀ (st1 : MState) (w1 : World), child ⟨dep, rb, 1, st1, w1⟩ ≠ none) →
    procLines env child pname rb lines st w ks ≠ none := by
  intro lines
  induction lines with
  | nil =>
    intro st w ks hdeps
    simp [procLines]
  | cons line rest ih =>
    intro st w ks hdeps
    simp only [procLines]
    cases hline : parseErrLine line with
    | none =>
      refine ih st w ks ?_
      intro dep hd st1 w1
      refine hdeps dep ?_ st1 w1
      rw [List.filterMap_cons, hline]
      exact hd
    | some dep =>
      have hmemdep : dep ∈ (line :: rest).filterMap parseErrLine := by
        rw [List.filterMap_cons, hline]
        exact List.mem_cons_self dep _
      dsimp only
      cases hres : env.resolvable dep with
      | false => simp
      | true =>
        rw [if_pos rfl]
        cases hch : child ⟨dep, rb, 1, emptyMState dep, w⟩ with
        | none => exact absurd hch (hdeps dep hmemdep (emptyMState dep) w)
        | some b =>
          cases b with
          | exn => simp
          | ok o =>
            refine ih _ _ _ ?_
            intro d hd st1 w1
            refine hdeps d ?_ st1 w1
            rw [List.filterMap_cons, hline]
            exact List.mem_cons_of_mem _ hd

/-- The attempt phase at the first iteration completes when every child
build of a discoverable dependency completes and the retry completes. -/
theorem buildStep2_ne_none_iter1 (env : Env) (child : BIn → Option BRes) (name : String)
    (rb : Bool) (st : MState) (w : World)
    (hdeps : ∀ dep, possibleDeps env name dep →
      ∀ (st1 : MState) (w1 : World), child ⟨dep, rb, 1, st1, w1⟩ ≠ none)
    (hretry : ∀ args : BIn, args.iter ≠ 1 → child args ≠ none) :
    buildStep2 env child name rb 1 st w ≠ none := by
  unfold buildStep2
  by_cases hexit : (env.makepkg name (build_depends st) w).exit = 0
  · rw [if_pos hexit]
    by_cases hver : verifyB (addPaths w (env.makepkg name (build_depends st) w).created)
        (runtime_packages { st with packages := st.packages ∪ env.packagelist name }) = true
    · rw [if_pos hver]
      simp
    · rw [if_neg hver]
      simp
  · rw [if_neg hexit, if_pos rfl]
    cases hpl : procLines env child name rb (env.makepkg name (build_depends st) w).stdout st
        (addPaths w (env.makepkg name (build_depends st) w).created) [] with
    | none =>
      refine absurd hpl (procLines_ne_none env child name rb _ _ _ _ ?_)
      intro dep hd st1 w1
      exact hdeps dep ⟨build_depends st, w, hd⟩ st1 w1
    | some r =>
      cases r with
      | error e => simp
      | ok trip =>
        obtain ⟨st2, w2, ks⟩ := trip
        dsimp only
        by_cases hbd : build_depends st2 ≠ ∅
        · rw [if_pos hbd]
          cases hch : child ⟨name, rb, 1 + 1, st2, w2⟩ with
          | none =>
            refine absurd hch (hretry ⟨name, rb, 1 + 1, st2, w2⟩ ?_)
            show 1 + 1 ≠ 1
            decide
          | some b => cases b <;> simp
        · rw [if_neg hbd]
          simp

/-- Termination of the recursive build under depth-bounded discovery:
with fuel one above the bound, the build never runs out of fuel. -/
theorem discoveryBounded_terminates (env : Env) :
    ∀ (n : Nat) (name : String), discoveryBounded env n name →
    ∀ (rb : Bool) (iter : Nat) (st : MState) (w : World),
    buildFuel env (n + 1) ⟨name, rb, iter, st, w⟩ ≠ none := by
  intro n
  induction n with
  | zero =>
    intro name hD
    exact hD.elim
  | succ n ih =>
    intro name hD rb iter st w
    by_cases hiter : iter = 1
    · subst hiter
      have hdeps : ∀ dep, possibleDeps env name dep →
          ∀ (st1 : MState) (w1 : World),
          buildFuel env (n + 1) ⟨dep, rb, 1, st1, w1⟩ ≠ none :=
        fun dep hdep st1 w1 => ih dep (hD dep hdep) rb 1 st1 w1
      have hretry : ∀ args : BIn, args.iter ≠ 1 → buildFuel env (n + 1) args ≠ none :=
        fun args hne => buildFuel_ne_none_iter_ne1 env n args hne
      cases rb with
      | true =>
        rw [buildFuel_rebuild]
        exact buildStep2_ne_none_iter1 env (buildFuel env (n + 1)) name true st w hdeps hretry
      | false =>
        rw [buildFuel_first]
        cases hload : Manifest.load st (w.manifests name) with
        | error e => simp
        | ok p =>
          obtain ⟨st1, loaded⟩ := p
          dsimp only
          by_cases hc : (loaded && verifyB w (runtime_packages st1)) = true
          · rw [if_pos hc]
            simp
          · rw [if_neg hc]
            exact buildStep2_ne_none_iter1 env (buildFuel env (n + 1)) name false
              (resetState st1) w hdeps hretry
    · exact buildFuel_ne_none_iter_ne1 env (n + 1) ⟨name, rb, iter, st, w⟩ hiter

/-- Claim C1 (amended): the recursive build terminates for every behavior
of the external build tool whose dependency discovery is depth-bounded,
with the recursion depth bounded by the discovery bound; with a cyclic
discovery behavior, as in the counterexample, build never returns. -/
theorem buildTerminatesBounded (env : Env) (n : Nat) (name : String)
    (hD : discoveryBounded env n name) (rb : Bool) (st : MState) (w : World) :
    buildTop env (n + 1) name rb st w ≠ none :=
  discoveryBounded_terminates env n name hD rb 1 st w

/-- Witness: under a quiet tool reporting nothing missing, the build of X
completes within the bound. -/
theorem buildTerminatesBounded_witness :
    buildTop envQuiet 2 "X" false (emptyMState "X") wAbsent ≠ none :=
  buildTerminatesBounded envQuiet 1 "X"
    (by
      intro dep hdep
      obtain ⟨bd, w1, hmem⟩ := hdep
      simp [envQuiet, parseErrLine] at hmem)
    false (emptyMState "X") wAbsent

end PkgBuilder
